import Mathlib

/-!
Verification of the VM-assessment normalization + pricing pipeline.

Shallow embedding of the core data model and operations:
  * `models/vm_models.py`   — enums, `VMSpec`, `BOMLineItem`, `VMAssessment`,
    `BillOfMaterials`, `detect_os_type`, `detect_power_state`;
  * `pricing/oracle_cloud_pricing.py` — `calculate_ocpu_count`, `calculate_vm_cost`;
  * `processors/base_processor.py` — `calculate_assessment_cost`, the processor's
    powered-off filtering step;
  * `processors/rvtools_processor.py` — `_convert_units`, `_aggregate_vm_data`,
    `_merge_vm_data`, `_create_vm_spec_from_row`.

Python strings are modelled as `List Char` (`Str`), Python floats as `ℚ`,
Python ints as `ℤ`.  Free-text audit descriptions inside cost items (pure
display strings never read back by the pipeline) are not modelled.
-/

/-! ## Strings as lists of characters -/

abbrev Str := List Char

/-- ASCII lower-casing of one character, as Python `str.lower` acts on the
ASCII range used by the column headers and keywords of this code base. -/
def lowerChar (c : Char) : Char :=
  if 65 ≤ c.toNat ∧ c.toNat ≤ 90 then Char.ofNat (c.toNat + 32) else c

/-- Python `s.lower()`. -/
def lowerStr (s : Str) : Str := s.map lowerChar

/-- Python `pat in s` (substring containment). -/
def hasSubstr (pat : Str) : Str → Bool
  | [] => pat.isEmpty
  | c :: t => pat.isPrefixOf (c :: t) || hasSubstr pat t

/-- One fuel step of `replaceAll`; the fuel is an upper bound on the length of
the string still to scan, so `fuel = s.length` always suffices. -/
def replaceAllAux (old new : Str) : Nat → Str → Str
  | 0, s => s
  | fuel + 1, s =>
    if old ≠ [] ∧ old.isPrefixOf s then new ++ replaceAllAux old new fuel (s.drop old.length)
    else
      match s with
      | [] => []
      | c :: t => c :: replaceAllAux old new fuel t

/-- Python `s.replace(old, new)` for non-empty `old` (every call site of this
development passes a non-empty pattern). -/
def replaceAll (s old new : Str) : Str := replaceAllAux old new s.length s

/-- Python `s.strip()` (ASCII whitespace on both ends). -/
def stripStr (s : Str) : Str :=
  ((s.dropWhile Char.isWhitespace).reverse.dropWhile Char.isWhitespace).reverse

/-! ## Enumerations (`models/vm_models.py`) -/

/-- `PowerState` enum. -/
inductive PowerState where
  | POWERED_ON
  | POWERED_OFF
  | SUSPENDED
  | UNKNOWN
deriving DecidableEq, Repr

/-- `OSType` enum. -/
inductive OSType where
  | WINDOWS
  | LINUX
  | UNIX
  | OTHER
  | UNKNOWN
deriving DecidableEq, Repr

/-- `StorageType` enum. -/
inductive StorageType where
  | BLOCK
  | OBJECT
  | FILE
  | UNKNOWN
deriving DecidableEq, Repr

/-! ## OS and power-state classifiers (`models/vm_models.py`) -/

/-- The unix-family keyword list of `detect_os_type`, in source order. -/
def unixKeywords : List Str :=
  ["ubuntu".data, "centos".data, "oracle linux".data, "debian".data, "suse".data,
   "linux".data, "rhel".data, "unix".data, "aix".data, "solaris".data, "bsd".data]

/-- `detect_os_type` from `models/vm_models.py`. -/
def detect_os_type (os_string : Str) : OSType :=
  if os_string.isEmpty then OSType.UNKNOWN
  else
    let os_lower := lowerStr os_string
    if hasSubstr "windows".data os_lower || hasSubstr "microsoft".data os_lower then
      OSType.WINDOWS
    else if unixKeywords.any (fun k => hasSubstr k os_lower) then
      OSType.LINUX
    else
      OSType.OTHER

/-- The unix-family keyword list in the order the specification lists it
(`ubuntu, centos, debian, suse, linux, rhel, unix, aix, solaris, bsd,
"oracle linux"`). -/
def unixKeywordsSpec : List Str :=
  ["ubuntu".data, "centos".data, "debian".data, "suse".data, "linux".data,
   "rhel".data, "unix".data, "aix".data, "solaris".data, "bsd".data,
   "oracle linux".data]

/-- Modelled from the spec's words: the OS classifier as clause (4) of the
VM Record Builder rules describes it, for comparison with `detect_os_type`. -/
def detect_os_type_spec (os_string : Str) : OSType :=
  if os_string.isEmpty then OSType.UNKNOWN
  else
    let os_lower := lowerStr os_string
    if hasSubstr "windows".data os_lower || hasSubstr "microsoft".data os_lower then
      OSType.WINDOWS
    else if unixKeywordsSpec.any (fun k => hasSubstr k os_lower) then
      OSType.LINUX
    else
      OSType.OTHER

/-- `detect_power_state` from `models/vm_models.py`. -/
def detect_power_state (power_string : Str) : PowerState :=
  if power_string.isEmpty then PowerState.UNKNOWN
  else
    let power_lower := lowerStr power_string
    if hasSubstr "on".data power_lower || hasSubstr "running".data power_lower then
      PowerState.POWERED_ON
    else if hasSubstr "off".data power_lower || hasSubstr "stopped".data power_lower then
      PowerState.POWERED_OFF
    else if hasSubstr "suspend".data power_lower then
      PowerState.SUSPENDED
    else
      PowerState.UNKNOWN

/-! ## VM data model (`models/vm_models.py`) -/

/-- `VMStorage`: one storage extent. -/
structure VMStorage where
  capacity_gb : ℚ
  used_gb : Option ℚ := none
  storage_type : StorageType := StorageType.BLOCK
  datastore : Option Str := none
deriving DecidableEq

/-- `VMSpec`: the canonical VM record.  Free-text metadata fields that no
modelled operation reads (tags, dates, folder, networks) are omitted. -/
structure VMSpec where
  vm_id : Str
  vm_name : Str
  cpu_cores : ℤ
  memory_gb : ℚ
  storage : List VMStorage := []
  os_type : OSType := OSType.UNKNOWN
  os_config : Option Str := none
  power_state : PowerState := PowerState.UNKNOWN
  cluster : Option Str := none
  host : Option Str := none
  datacenter : Option Str := none
  source_format : Option Str := none
deriving DecidableEq

/-- `VMSpec.total_storage_gb`: sum of extent capacities. -/
def VMSpec.total_storage_gb (vm : VMSpec) : ℚ :=
  (vm.storage.map VMStorage.capacity_gb).sum

/-- `VMSpec.is_powered_on`: true iff the power state is `POWERED_ON`. -/
def VMSpec.is_powered_on (vm : VMSpec) : Bool :=
  match vm.power_state with
  | PowerState.POWERED_ON => true
  | _ => false

/-- `BOMLineItem`: one priced component attributed to one VM.  The free-text
`description` display field is not modelled. -/
structure BOMLineItem where
  vm_id : Str
  vm_name : Str
  os_type : OSType
  component_type : String
  quantity : ℚ
  unit : String
  unit_price : ℚ
  total_cost : ℚ
  currency : String := "EUR"
  pricing_model : Option String := none

/-- `BOMLineItem.monthly_cost` property: the stored `total_cost` (the unit
period is one month). -/
def BOMLineItem.monthly_cost (item : BOMLineItem) : ℚ := item.total_cost

/-- `BOMLineItem.annual_cost` property: `total_cost * 12`. -/
def BOMLineItem.annual_cost (item : BOMLineItem) : ℚ := item.total_cost * 12

/-- `VMAssessment`: VM list plus derived counters and the metadata map, of
which only the `include_powered_off` entry (read by
`calculate_assessment_cost` as `metadata.get('include_powered_off', False)`)
is modelled. -/
structure VMAssessment where
  vms : List VMSpec := []
  source_format : Option Str := none
  total_vms : ℕ := 0
  powered_on_vms : ℕ := 0
  include_powered_off : Bool := false

/-- `VMAssessment.__post_init__`: construction recomputes the two derived
counters from the VM list. -/
def mkVMAssessment (vms : List VMSpec) (source_format : Option Str := none)
    (include_powered_off : Bool := false) : VMAssessment :=
  { vms := vms
    source_format := source_format
    total_vms := vms.length
    powered_on_vms := (vms.filter VMSpec.is_powered_on).length
    include_powered_off := include_powered_off }

/-- `VMAssessment.add_vm`: stamp the VM with the assessment's source format,
append it, and recompute both derived counters. -/
def VMAssessment.add_vm (a : VMAssessment) (vm : VMSpec) : VMAssessment :=
  let vm' := { vm with source_format := a.source_format }
  let vms' := a.vms ++ [vm']
  { a with
    vms := vms'
    total_vms := vms'.length
    powered_on_vms := (vms'.filter VMSpec.is_powered_on).length }

/-- `VMAssessment.get_powered_on_vms`. -/
def VMAssessment.get_powered_on_vms (a : VMAssessment) : List VMSpec :=
  a.vms.filter VMSpec.is_powered_on

/-- The powered-off filtering step of `VMAssessmentProcessor.process`
(`base_processor.py` lines 87-92, taken when `include_powered_off` is false):
`assessment.vms = assessment.get_powered_on_vms()`.  The assignment replaces
the VM list only; no other field is touched. -/
def processFilterStep (a : VMAssessment) : VMAssessment :=
  { a with vms := a.get_powered_on_vms }

/-- `BillOfMaterials`. -/
structure BillOfMaterials where
  assessment_id : Str
  line_items : List BOMLineItem := []
  currency : String := "EUR"
  pricing_source : Option String := none

/-- `BillOfMaterials.total_monthly_cost`: sum of the line items' monthly
costs. -/
def BillOfMaterials.total_monthly_cost (bom : BillOfMaterials) : ℚ :=
  (bom.line_items.map BOMLineItem.monthly_cost).sum

/-- `BillOfMaterials.total_annual_cost`: sum of the line items' annual
costs. -/
def BillOfMaterials.total_annual_cost (bom : BillOfMaterials) : ℚ :=
  (bom.line_items.map BOMLineItem.annual_cost).sum

/-- `BillOfMaterials.add_line_item`: force the item's currency to the BOM's
currency and append. -/
def BillOfMaterials.add_line_item (bom : BillOfMaterials) (item : BOMLineItem) :
    BillOfMaterials :=
  { bom with line_items := bom.line_items ++ [{ item with currency := bom.currency }] }

/-! ## Oracle Cloud pricing (`pricing/oracle_cloud_pricing.py`) -/

/-- The rate card: the unit prices and metadata `calculate_vm_cost` reads out
of the pricing-configuration dictionary. -/
structure PricingConfig where
  currency : String := "EUR"
  hours_per_month : ℚ := 744
  ocpu_unit_price : ℚ
  memory_gb_unit_price : ℚ
  block_volume_unit_price : ℚ
  block_volume_vpu_unit_price : ℚ
  windows_server_unit_price : ℚ

/-- The `_get_default_config` fallback rate card. -/
def defaultPricingConfig : PricingConfig :=
  { currency := "EUR"
    hours_per_month := 744
    ocpu_unit_price := 279 / 10000
    memory_gb_unit_price := 186 / 100000
    block_volume_unit_price := 23715 / 1000000
    block_volume_vpu_unit_price := 1581 / 1000000
    windows_server_unit_price := 8556 / 100000 }

/-- One entry of the cost-item list returned by `calculate_vm_cost`.  The
free-text `description` display field is not modelled. -/
structure CostItem where
  component_type : String
  quantity : ℚ
  unit : String
  unit_price : ℚ
  total_cost : ℚ
  pricing_model : Option String := none

/-- `_calculate_ocpu_count`: 0 for non-positive cores, 1 for one core, and
`(cores + 1) // 2` (Python floor division) otherwise. -/
def calculate_ocpu_count (cpu_cores : ℤ) : ℤ :=
  if cpu_cores ≤ 0 then 0
  else if cpu_cores = 1 then 1
  else (cpu_cores + 1).fdiv 2

/-- `OracleCloudPricingCalculator.calculate_vm_cost`: cost breakdown for one
VM; powered-off VMs return the empty list before any component is built. -/
def calculate_vm_cost (cfg : PricingConfig) (vm : VMSpec) : List CostItem :=
  if !vm.is_powered_on then []
  else
    let ocpu_count := calculate_ocpu_count vm.cpu_cores
    let items : List CostItem :=
      if 0 < ocpu_count then
        let ocpu_monthly := cfg.ocpu_unit_price * cfg.hours_per_month
        [{ component_type := "Compute"
           quantity := (ocpu_count : ℚ)
           unit := "OCPU"
           unit_price := ocpu_monthly
           total_cost := (ocpu_count : ℚ) * ocpu_monthly
           pricing_model := some "on-demand" }]
      else []
    let items := items ++
      (if 0 < vm.memory_gb then
        let memory_monthly := cfg.memory_gb_unit_price * cfg.hours_per_month
        [{ component_type := "Memory"
           quantity := vm.memory_gb
           unit := "GB"
           unit_price := memory_monthly
           total_cost := vm.memory_gb * memory_monthly
           pricing_model := some "on-demand" }]
      else [])
    let total_storage_gb := vm.total_storage_gb
    let items := items ++
      (if 0 < total_storage_gb then
        let storage_monthly := cfg.block_volume_unit_price
        let vpu_count := total_storage_gb * 10
        let vpu_monthly := cfg.block_volume_vpu_unit_price
        [{ component_type := "Storage"
           quantity := total_storage_gb
           unit := "GB"
           unit_price := storage_monthly
           total_cost := total_storage_gb * storage_monthly
           pricing_model := some "on-demand" },
         { component_type := "Storage Performance"
           quantity := vpu_count
           unit := "VPU"
           unit_price := vpu_monthly
           total_cost := vpu_count * vpu_monthly
           pricing_model := some "on-demand" }]
      else [])
    items ++
      (if vm.os_type = OSType.WINDOWS ∧ 0 < ocpu_count then
        let windows_monthly := cfg.windows_server_unit_price * cfg.hours_per_month
        [{ component_type := "OS License"
           quantity := (ocpu_count : ℚ)
           unit := "OCPU"
           unit_price := windows_monthly
           total_cost := (ocpu_count : ℚ) * windows_monthly
           pricing_model := some "on-demand" }]
      else [])

/-- The `BOMLineItem` built from one cost item inside
`CloudPricingCalculator.calculate_assessment_cost`. -/
def mkLineItem (currency : String) (vm : VMSpec) (ci : CostItem) : BOMLineItem :=
  { vm_id := vm.vm_id
    vm_name := vm.vm_name
    os_type := vm.os_type
    component_type := ci.component_type
    quantity := ci.quantity
    unit := ci.unit
    unit_price := ci.unit_price
    total_cost := ci.total_cost
    currency := currency
    pricing_model := ci.pricing_model }

/-- `CloudPricingCalculator.calculate_assessment_cost`: price every VM that is
powered on or admitted by the `include_powered_off` metadata flag, and append
one line item per cost component via `add_line_item`. -/
def calculate_assessment_cost (cfg : PricingConfig) (assessment : VMAssessment)
    (assessment_id : Str := []) : BillOfMaterials :=
  let bom : BillOfMaterials :=
    { assessment_id := assessment_id
      line_items := []
      currency := cfg.currency
      pricing_source := some "Oracle Cloud Infrastructure" }
  assessment.vms.foldl
    (fun bom vm =>
      if !vm.is_powered_on && !assessment.include_powered_off then bom
      else
        (calculate_vm_cost cfg vm).foldl
          (fun bom ci => bom.add_line_item (mkLineItem cfg.currency vm ci)) bom)
    bom

/-! ## Tabular datasets (`processors/rvtools_processor.py`)

A pandas dataframe is modelled column-wise: each column has a name and is
either numeric or textual (the two dtypes this pipeline distinguishes via
`pd.api.types.is_numeric_dtype`), with `none` cells standing for NaN /
missing values. -/

/-- Column payload: a numeric column or a textual column. -/
inductive ColData where
  | nums (vs : List (Option ℚ))
  | strs (vs : List (Option Str))
deriving DecidableEq

/-- One named column. -/
structure Col where
  name : Str
  data : ColData
deriving DecidableEq

/-- A dataframe: a list of named columns (all of one row count in any frame
pandas produces). -/
abbrev Frame := List Col

/-- Number of cells of a column. -/
def ColData.length : ColData → Nat
  | ColData.nums vs => vs.length
  | ColData.strs vs => vs.length

/-- Is the column numeric (`pd.api.types.is_numeric_dtype`)? -/
def Col.isNumeric (c : Col) : Bool :=
  match c.data with
  | ColData.nums _ => true
  | ColData.strs _ => false

/-- Row count of a frame (its first column's length). -/
def Frame.nRows : Frame → Nat
  | [] => 0
  | c :: _ => c.data.length

/-- pandas `df.empty`: an axis of length zero. -/
def Frame.isEmpty (df : Frame) : Bool := df.nRows == 0

/-- The column names of a frame. -/
def Frame.names (df : Frame) : List Str := df.map Col.name

/-- First column of the given name, if any. -/
def findCol : Frame → Str → Option Col
  | [], _ => none
  | c :: t, n => if c.name = n then some c else findCol t n

/-- Does a column of the given name exist? -/
def hasCol (df : Frame) (n : Str) : Bool := (findCol df n).isSome

/-- pandas `df[n] = data`: overwrite the column in place when the name
exists, else append a new column at the end. -/
def setCol (df : Frame) (n : Str) (d : ColData) : Frame :=
  if hasCol df n then df.map (fun c => if c.name = n then ⟨n, d⟩ else c)
  else df ++ [⟨n, d⟩]

/-- pandas `df.drop(columns=[n])`. -/
def dropCol (df : Frame) (n : Str) : Frame :=
  df.filter (fun c => !(c.name == n))

/-- The cells of a column as tagged values (numeric left, textual right). -/
def ColData.cellList : ColData → List (Option (ℚ ⊕ Str))
  | ColData.nums vs => vs.map (fun v => v.map Sum.inl)
  | ColData.strs vs => vs.map (fun v => v.map Sum.inr)

/-- Apply a numeric function to every cell of a numeric column; textual
columns are returned unchanged. -/
def ColData.mapNum (f : ℚ → ℚ) : ColData → ColData
  | ColData.nums vs => ColData.nums (vs.map (Option.map f))
  | ColData.strs vs => ColData.strs vs

/-! ## Unit Normalizer (`_convert_units`) -/

/-- Round-half-to-even to an integer (the rounding of IEEE-754 arithmetic,
which numpy's `round` follows), in exact rational arithmetic. -/
def roundHalfEven (q : ℚ) : ℤ :=
  let f := ⌊q⌋
  let r := q - (f : ℚ)
  if r < 1/2 then f
  else if 1/2 < r then f + 1
  else if f % 2 = 0 then f else f + 1

/-- pandas `.round(2)`: round to two decimal places. -/
def round2 (q : ℚ) : ℚ := (roundHalfEven (q * 100) : ℚ) / 100

/-- `'mib' in col.lower()`. -/
def isMibName (n : Str) : Bool := hasSubstr "mib".data (lowerStr n)

/-- `'mb' in col.lower() and 'mbps' not in col.lower()`. -/
def isMbName (n : Str) : Bool :=
  hasSubstr "mb".data (lowerStr n) && !(hasSubstr "mbps".data (lowerStr n))

/-- `col.replace(' MiB', ' GB').replace('MiB', '_GB')`. -/
def renameMib (n : Str) : Str :=
  replaceAll (replaceAll n " MiB".data " GB".data) "MiB".data "_GB".data

/-- `col.replace(' MB', ' GB').replace('MB', '_GB')`. -/
def renameMb (n : Str) : Str :=
  replaceAll (replaceAll n " MB".data " GB".data) "MB".data "_GB".data

/-- The MiB-loop selection of `_convert_units`:
`'mib' in col.lower() and pd.api.types.is_numeric_dtype(df[col])`. -/
def mibSel (c : Col) : Bool := isMibName c.name && c.isNumeric

/-- The MB-loop selection of `_convert_units`:
`'mb' in col.lower() and 'mbps' not in col.lower() and is_numeric_dtype`. -/
def mbSel (c : Col) : Bool := isMbName c.name && c.isNumeric

/-- One iteration of a conversion loop of `_convert_units`: read the column,
store its converted data under the renamed name, drop the original column. -/
def convertStep (f : ℚ → ℚ) (rename : Str → Str) (df : Frame) (n : Str) : Frame :=
  match findCol df n with
  | some c => dropCol (setCol df (rename n) (c.data.mapNum f)) n
  | none => df

/-- `_convert_units`: divide numeric MiB columns by 1024 and numeric MB
columns (Mbps excluded) by 1000, rounding to 2 decimals, renaming each
converted column to its GB name; the MB column list is recomputed after the
MiB loop, as in the source. -/
def convert_units (df : Frame) : Frame :=
  let mib_cols := (df.filter mibSel).map Col.name
  let df1 := mib_cols.foldl (convertStep (fun v => round2 (v / 1024)) renameMib) df
  let mb_cols := (df1.filter mbSel).map Col.name
  mb_cols.foldl (convertStep (fun v => round2 (v / 1000)) renameMb) df1

/-! ## Per-Dataset Aggregator (`_aggregate_vm_data`) -/

/-- The VM-identity column name. -/
def uuidKey : Str := "VM UUID".data

/-- Lexicographic order on strings by character code. -/
def strLe : Str → Str → Bool
  | [], _ => true
  | _ :: _, [] => false
  | a :: s, b :: t =>
    if a.toNat < b.toNat then true
    else if b.toNat < a.toNat then false
    else strLe s t

/-- Order on cell values (numeric before textual; a uuid column is
single-dtype, so the cross cases never arise in practice). -/
def cellLe : (ℚ ⊕ Str) → (ℚ ⊕ Str) → Bool
  | Sum.inl a, Sum.inl b => decide (a ≤ b)
  | Sum.inr a, Sum.inr b => strLe a b
  | Sum.inl _, Sum.inr _ => true
  | Sum.inr _, Sum.inl _ => false

/-- Insert into a sorted list. -/
def insertLe (le : α → α → Bool) (a : α) : List α → List α
  | [] => [a]
  | b :: t => if le a b then a :: b :: t else b :: insertLe le a t

/-- Insertion sort (pandas `groupby` sorts group keys ascending). -/
def sortLe (le : α → α → Bool) : List α → List α
  | [] => []
  | a :: t => insertLe le a (sortLe le t)

/-- Does the column name carry a capacity/size keyword (summed on
aggregation)? -/
def isSizeName (n : Str) : Bool :=
  ["size".data, "capacity".data, "mib".data, "gb".data, "mb".data].any
    (fun w => hasSubstr w (lowerStr n))

/-- Rebuild an identity column from the group keys, with the dtype of the
original identity column. -/
def colOfKeys (ks : List (ℚ ⊕ Str)) : ColData → ColData
  | ColData.nums _ => ColData.nums (ks.map (fun k =>
      match k with
      | Sum.inl q => some q
      | Sum.inr _ => none))
  | ColData.strs _ => ColData.strs (ks.map (fun k =>
      match k with
      | Sum.inr s => some s
      | Sum.inl _ => none))

/-- The `groupby('VM UUID').agg(agg_dict).reset_index()` reduction: group
rows by non-null identity (sorted keys, NaN identities dropped), then reduce
each other column — sum for numeric capacity columns, mean for other numeric
columns (NaN when a group has no value), first non-null value for textual
columns. -/
def groupAgg (df : Frame) (uuidCol : Col) : Frame :=
  let uuidCells := uuidCol.data.cellList
  let keys := sortLe cellLe (uuidCells.filterMap id).dedup
  let rowsOf := fun (k : ℚ ⊕ Str) =>
    (List.range uuidCells.length).filter (fun i => decide (uuidCells.getD i none = some k))
  ⟨uuidKey, colOfKeys keys uuidCol.data⟩ ::
    (df.filter (fun c => !(c.name == uuidKey))).map (fun c =>
      match c.data with
      | ColData.nums vs =>
        ⟨c.name, ColData.nums (keys.map (fun k =>
          let group := (rowsOf k).filterMap (fun i => vs.getD i none)
          if isSizeName c.name then some group.sum
          else if group.isEmpty then none
          else some (group.sum / (group.length : ℚ))))⟩
      | ColData.strs vs =>
        ⟨c.name, ColData.strs (keys.map (fun k =>
          ((rowsOf k).filterMap (fun i => vs.getD i none)).head?))⟩)

/-- `_aggregate_vm_data`: pass frames without identity column (or empty
frames) through; pass frames whose non-null identities are unique through
unit conversion only; otherwise group and reduce, then convert units. -/
def aggregate_vm_data (df : Frame) : Frame :=
  if !(hasCol df uuidKey) || df.isEmpty then df
  else
    match findCol df uuidKey with
    | none => df
    | some u =>
      let nonNull := (u.data.cellList).filterMap id
      if !nonNull.isEmpty && decide nonNull.Nodup then convert_units df
      else convert_units (groupAgg df u)

/-! ## Multi-Source Merger (`_merge_vm_data`) -/

/-- Prefix every non-identity column name with the dataset name and an
underscore. -/
def prefixCols (k : Str) (df : Frame) : Frame :=
  df.map (fun c => if c.name = uuidKey then c else ⟨k ++ "_".data ++ c.name, c.data⟩)

/-- Gather the cells of a column at an optional row index per output row
(`none` produces a NaN cell, as a left join does for unmatched rows). -/
def ColData.takeIdx : ColData → List (Option Nat) → ColData
  | ColData.nums vs, idx => ColData.nums (idx.map (fun oi => oi.bind (fun i => vs.getD i none)))
  | ColData.strs vs, idx => ColData.strs (idx.map (fun oi => oi.bind (fun i => vs.getD i none)))

/-- pandas `left.merge(right, on='VM UUID', how='left')`: keep every left
row (duplicated per matching right row, NaN-filled when unmatched), keep the
single identity column, append the right frame's other columns. -/
def leftMerge (left right : Frame) : Frame :=
  match findCol left uuidKey, findCol right uuidKey with
  | some ul, some ur =>
    let lk := ul.data.cellList
    let rk := ur.data.cellList
    let pairs : List (Nat × Option Nat) :=
      (List.range lk.length).flatMap (fun i =>
        let js := (List.range rk.length).filter
          (fun j => decide (rk.getD j none = lk.getD i none))
        match js with
        | [] => [(i, none)]
        | _ => js.map (fun j => (i, some j)))
    left.map (fun c => ⟨c.name, c.data.takeIdx (pairs.map (fun p => some p.1))⟩) ++
      (right.filter (fun c => !(c.name == uuidKey))).map
        (fun c => ⟨c.name, c.data.takeIdx (pairs.map Prod.snd)⟩)
  | _, _ => left

/-- The base-dataset preference key. -/
def cpuKey : Str := "cpu".data

/-- Find a dataset by name. -/
def lookupFrame (csv_data : List (Str × Frame)) (k : Str) : Option Frame :=
  (csv_data.find? (fun p => p.1 == k)).map Prod.snd

/-- `_merge_vm_data`: raise `ValueError("No CSV data to merge")` when no
dataset is supplied; otherwise aggregate the base dataset (the `cpu` dataset
when present, else the first), prefix its columns, and left-join every other
non-empty aggregated dataset onto it by VM identity. -/
def merge_vm_data (csv_data : List (Str × Frame)) : Except String Frame :=
  match csv_data with
  | [] => Except.error "No CSV data to merge"
  | (k₀, f₀) :: _ =>
    let base_key := if csv_data.any (fun p => p.1 == cpuKey) then cpuKey else k₀
    let base := (lookupFrame csv_data base_key).getD f₀
    let result := prefixCols base_key (aggregate_vm_data base)
    Except.ok
      ((csv_data.filter (fun p => !(p.1 == base_key))).foldl
        (fun acc kf =>
          let agg := aggregate_vm_data kf.2
          if agg.isEmpty then acc
          else leftMerge acc (prefixCols kf.1 agg))
        result)

/-! ## VM Record Builder (`_create_vm_spec_from_row`) -/

/-- One merged row, as the stringly cell values `str(...)` produces at each
`row.get` site of `_create_vm_spec_from_row`. -/
abbrev Row := List (Str × Str)

/-- pandas `row.get(k)` on a series index: first matching entry. -/
def rowGet (row : Row) (k : Str) : Option Str :=
  (row.find? (fun p => p.1 == k)).map Prod.snd

/-- pandas `row.get(k, dflt)`. -/
def rowGetD (row : Row) (k : Str) (dflt : Str) : Str := (rowGet row k).getD dflt

/-- The column mapping produced by `_map_columns`: per canonical field the
source column chosen for it, when any (the pass-through `annotation` field,
which no modelled consumer reads, is omitted). -/
structure ColumnMap where
  vm_name : Option Str := none
  os_config : Option Str := none
  cpu : Option Str := none
  memory : Option Str := none
  disk_capacity : Option Str := none
  powerstate : Option Str := none
  cluster : Option Str := none
  host : Option Str := none
  datacenter : Option Str := none
deriving DecidableEq

/-- Numeric digits to a natural number. -/
def digitsToNat (ds : Str) : Nat := ds.foldl (fun acc c => acc * 10 + (c.toNat - 48)) 0

/-- Python `float(s)` on decimal notation: optional surrounding whitespace,
optional sign, digits with an optional fractional part (scientific notation
and the special values are outside this model); `none` on anything else. -/
def parseFloat (s : Str) : Option ℚ :=
  let t := stripStr s
  let signed : ℤ × Str :=
    match t with
    | '-' :: r => (-1, r)
    | '+' :: r => (1, r)
    | _ => (1, t)
  let ip := signed.2.takeWhile Char.isDigit
  let rest := signed.2.dropWhile Char.isDigit
  match rest with
  | [] => if ip.isEmpty then none else some (mkRat (signed.1 * (digitsToNat ip : ℤ)) 1)
  | '.' :: fr =>
    let fp := fr.takeWhile Char.isDigit
    if !(fr.dropWhile Char.isDigit).isEmpty then none
    else if ip.isEmpty && fp.isEmpty then none
    else some (mkRat (signed.1 * ((digitsToNat ip * 10 ^ fp.length + digitsToNat fp : ℕ) : ℤ))
      (10 ^ fp.length))
  | _ => none

/-- Python `int(q)` on a float: truncation toward zero. -/
def ratTrunc (q : ℚ) : ℤ := q.num.tdiv (q.den : ℤ)

/-- `_safe_float`: parse, 0.0 on failure. -/
def safe_float (s : Str) : ℚ := (parseFloat s).getD 0

/-- `_safe_int`: `int(float(value))`, 0 on failure. -/
def safe_int (s : Str) : ℤ :=
  match parseFloat s with
  | some q => ratTrunc q
  | none => 0

/-- `.strip() or None`. -/
def optOfStripped (s : Str) : Option Str :=
  let t := stripStr s
  if t.isEmpty then none else some t

/-- The `'poweredOn'` default of the power-state lookup. -/
def powerOnDefault : Str := "poweredOn".data

/-- `_create_vm_spec_from_row`: build one canonical VM record from a merged
row under a column mapping; `none` (row skipped) when identity or name is
missing or when CPU and memory are both zero.  An unmapped field looks up
the empty column name, exactly as `column_map.get(field, '')` does. -/
def create_vm_spec_from_row (row : Row) (cm : ColumnMap) : Option VMSpec :=
  let vm_id := rowGetD row uuidKey []
  let vm_name := stripStr (rowGetD row (cm.vm_name.getD []) [])
  if vm_name.isEmpty || vm_id.isEmpty then none
  else
    let cpu_cores := safe_int (rowGetD row (cm.cpu.getD []) "0".data)
    let memory_gb := safe_float (rowGetD row (cm.memory.getD []) "0".data)
    if cpu_cores = 0 ∧ memory_gb = 0 then none
    else
      let os_str := rowGetD row (cm.os_config.getD []) []
      let vm_spec : VMSpec :=
        { vm_id := vm_id
          vm_name := vm_name
          cpu_cores := cpu_cores
          memory_gb := memory_gb
          storage := []
          os_type := detect_os_type os_str
          os_config := some (stripStr os_str)
          power_state := detect_power_state (rowGetD row (cm.powerstate.getD []) powerOnDefault)
          cluster := optOfStripped (rowGetD row (cm.cluster.getD []) [])
          host := optOfStripped (rowGetD row (cm.host.getD []) [])
          datacenter := optOfStripped (rowGetD row (cm.datacenter.getD []) [])
          source_format := some "RVTools".data }
      let disk_capacity := safe_float (rowGetD row (cm.disk_capacity.getD []) "0".data)
      some (if 0 < disk_capacity then
        { vm_spec with storage := [{ capacity_gb := disk_capacity }] }
      else vm_spec)

/-! ## Theorems -/

/-- For `n ≥ 1`, the integer ceiling of `n / 2`, computed as `(n + 1) / 2`. -/
lemma ceil_half_eq (n : ℤ) (h : 1 ≤ n) : ⌈(n : ℚ) / 2⌉ = (n + 1) / 2 := by
  have h1 : n ≤ 2 * ((n + 1) / 2) := by omega
  have h2 : 2 * ((n + 1) / 2) - 2 < n := by omega
  rw [Int.ceil_eq_iff]
  constructor
  · have hc : ((2 * ((n + 1) / 2) - 2 : ℤ) : ℚ) < ((n : ℤ) : ℚ) := by exact_mod_cast h2
    push_cast at hc
    linarith
  · have hc : ((n : ℤ) : ℚ) ≤ ((2 * ((n + 1) / 2) : ℤ) : ℚ) := by exact_mod_cast h1
    push_cast at hc
    linarith

/-- Claim C1: for every integer `cpu_cores`, the OCPU count equals
`ceiling(cpu_cores / 2)` with a floor of 1 for `cpu_cores ≥ 1` and 0 for
`cpu_cores ≤ 0`; in particular 0,1,2,3,4,5 map to 0,1,1,2,2,3. -/
theorem claim_C1_ocpu_count :
    (∀ n : ℤ, calculate_ocpu_count n =
      if n ≤ 0 then 0 else max 1 ⌈(n : ℚ) / 2⌉) ∧
    calculate_ocpu_count 0 = 0 ∧ calculate_ocpu_count 1 = 1 ∧
    calculate_ocpu_count 2 = 1 ∧ calculate_ocpu_count 3 = 2 ∧
    calculate_ocpu_count 4 = 2 ∧ calculate_ocpu_count 5 = 3 := by
  refine ⟨?_, by decide, by decide, by decide, by decide, by decide, by decide⟩
  intro n
  unfold calculate_ocpu_count
  by_cases h0 : n ≤ 0
  · simp [h0]
  · have h1 : 1 ≤ n := by omega
    rw [if_neg h0, if_neg h0, ceil_half_eq n h1]
    by_cases he : n = 1
    · subst he
      decide
    · rw [if_neg he, Int.fdiv_eq_ediv] <;> omega

/-- Claim C2: a VM whose power state is not `POWERED_ON` yields the empty
cost-component list from `calculate_vm_cost`, whatever the rate card. -/
theorem claim_C2_powered_off_no_cost (cfg : PricingConfig) (vm : VMSpec)
    (h : vm.power_state ≠ PowerState.POWERED_ON) :
    calculate_vm_cost cfg vm = [] := by
  have hoff : vm.is_powered_on = false := by
    unfold VMSpec.is_powered_on
    cases hps : vm.power_state <;> simp_all
  simp [calculate_vm_cost, hoff]

/-- A powered-off VM with non-zero CPU, memory and storage. -/
def vmOffRich : VMSpec :=
  { vm_id := "vm-off-1".data
    vm_name := "db-01".data
    cpu_cores := 2
    memory_gb := 4
    storage := [{ capacity_gb := 50 }]
    os_type := OSType.LINUX
    power_state := PowerState.POWERED_OFF }

/-- Witness for claim C2 at a concrete powered-off VM. -/
theorem claim_C2_witness :
    vmOffRich.power_state ≠ PowerState.POWERED_ON ∧
    calculate_vm_cost defaultPricingConfig vmOffRich = [] :=
  ⟨by decide, claim_C2_powered_off_no_cost defaultPricingConfig vmOffRich (by decide)⟩

/-- The derived-count invariant of `VMAssessment`. -/
def assessmentCountsInvariant (a : VMAssessment) : Prop :=
  a.total_vms = a.vms.length ∧
  a.powered_on_vms = (a.vms.filter VMSpec.is_powered_on).length

/-- Claim C4 counterexample: after the processor's powered-off filtering step
(which reassigns the VM list without recomputing the counters), `total_vms`
of an assessment holding one powered-off VM still reads 1 while the VM list
is empty — the derived counts do drift there. -/
theorem claim_C4_counterexample :
    ¬ assessmentCountsInvariant (processFilterStep (mkVMAssessment [vmOffRich])) := by
  intro hinv
  have h1 : (processFilterStep (mkVMAssessment [vmOffRich])).total_vms = 1 := by decide
  have h2 : (processFilterStep (mkVMAssessment [vmOffRich])).vms.length = 0 := by decide
  unfold assessmentCountsInvariant at hinv
  omega

/-- Claim C4 amended: the derived counts `total_vms` and `powered_on_vms`
agree with the underlying VM list after construction and after every
`add_vm`; the processor's powered-off filtering step, however, reassigns the
list without recomputing them (see the counterexample). -/
theorem claim_C4_amended :
    (∀ (vms : List VMSpec) (src : Option Str) (flag : Bool),
      assessmentCountsInvariant (mkVMAssessment vms src flag)) ∧
    (∀ (a : VMAssessment) (vm : VMSpec), assessmentCountsInvariant (a.add_vm vm)) :=
  ⟨fun _ _ _ => ⟨rfl, rfl⟩, fun _ _ => ⟨rfl, rfl⟩⟩

/-- Summing the annual costs equals 12 times the sum of the monthly costs. -/
lemma sum_annual_eq (l : List BOMLineItem) :
    (l.map BOMLineItem.annual_cost).sum = (l.map BOMLineItem.monthly_cost).sum * 12 := by
  induction l with
  | nil => simp
  | cons a t ih =>
    simp only [List.map_cons, List.sum_cons, ih, BOMLineItem.annual_cost,
      BOMLineItem.monthly_cost]
    ring

/-- Claim C5: per line item, `monthly_cost = total_cost` and
`annual_cost = total_cost * 12`; per bill of materials,
`total_monthly_cost` is the sum of the items' `total_cost` and
`total_annual_cost = total_monthly_cost * 12` — all derived. -/
theorem claim_C5_derived_costs :
    (∀ item : BOMLineItem, item.monthly_cost = item.total_cost ∧
      item.annual_cost = item.total_cost * 12) ∧
    (∀ bom : BillOfMaterials,
      bom.total_monthly_cost = (bom.line_items.map BOMLineItem.total_cost).sum ∧
      bom.total_annual_cost = bom.total_monthly_cost * 12) := by
  refine ⟨fun item => ⟨rfl, rfl⟩, fun bom => ⟨rfl, ?_⟩⟩
  exact sum_annual_eq bom.line_items

/-- Claim C8: the Multi-Source Merger raises the distinct
`"No CSV data to merge"` condition exactly on an empty dataset mapping, and
never raises it when at least one dataset is supplied. -/
theorem claim_C8_merge_no_data :
    merge_vm_data [] = Except.error "No CSV data to merge" ∧
    ∀ (d : Str × Frame) (rest : List (Str × Frame)),
      merge_vm_data (d :: rest) ≠ Except.error "No CSV data to merge" := by
  refine ⟨rfl, ?_⟩
  intro d rest
  obtain ⟨k, f⟩ := d
  simp [merge_vm_data]

/-- Claim C10: the OS classifier never returns the `UNIX` member, returns
`UNKNOWN` exactly on the empty descriptor, and always lands in
{WINDOWS, LINUX, OTHER, UNKNOWN}. -/
theorem claim_C10_os_closed_set :
    ∀ s : Str, detect_os_type s ≠ OSType.UNIX ∧
      (detect_os_type s = OSType.UNKNOWN ↔ s = []) ∧
      (detect_os_type s = OSType.WINDOWS ∨ detect_os_type s = OSType.LINUX ∨
        detect_os_type s = OSType.OTHER ∨ detect_os_type s = OSType.UNKNOWN) := by
  intro s
  cases s with
  | nil => simp [detect_os_type]
  | cons c t =>
    unfold detect_os_type
    simp only [List.isEmpty_cons, Bool.false_eq_true, if_false]
    split
    · simp
    · split <;> simp

/-- The two orders of the unix keyword list test the same strings. -/
lemma unixKw_any_eq (l : Str) :
    unixKeywordsSpec.any (fun k => hasSubstr k l) =
    unixKeywords.any (fun k => hasSubstr k l) := by
  simp only [unixKeywordsSpec, unixKeywords, List.any_cons, List.any_nil]
  cases h : hasSubstr "oracle linux".data l <;> simp [h]

/-- Claim C6: the OS classifier agrees with the spec's keyword heuristic
(case-insensitive windows/microsoft → Windows, unix-family keywords → Linux,
otherwise Other, empty → Unknown); in particular the three named examples. -/
theorem claim_C6_os_classifier :
    (∀ s : Str, detect_os_type s = detect_os_type_spec s) ∧
    detect_os_type "Red Hat Enterprise Linux 8".data = OSType.LINUX ∧
    detect_os_type "Windows Server 2019 Standard".data = OSType.WINDOWS ∧
    detect_os_type [] = OSType.UNKNOWN := by
  refine ⟨?_, by decide, by decide, rfl⟩
  intro s
  unfold detect_os_type detect_os_type_spec
  simp only [unixKw_any_eq]

/-- An assessment of one powered-off VM with the `include_powered_off`
metadata flag set. -/
def assessOffFlag : VMAssessment := mkVMAssessment [vmOffRich] none true

/-- Claim C3 counterexample: with `include_powered_off` set, a powered-off
VM with non-zero CPU, memory and storage still contributes no line item —
the assembler admits it, but `calculate_vm_cost` returns no cost components
for powered-off VMs, so the claim's "contributes its cost-component line
items" fails at this input. -/
theorem claim_C3_counterexample :
    assessOffFlag.include_powered_off = true ∧
    vmOffRich.is_powered_on = false ∧
    (calculate_assessment_cost defaultPricingConfig assessOffFlag).line_items = [] :=
  ⟨rfl, rfl, rfl⟩

/-- Folding cost items through `add_line_item` appends the corresponding
line items (currency forced to the accumulator's) and preserves the
accumulator's currency. -/
lemma add_fold_line_items (g : CostItem → BOMLineItem) (cis : List CostItem) :
    ∀ bom : BillOfMaterials,
      ((cis.foldl (fun b ci => b.add_line_item (g ci)) bom).line_items =
        bom.line_items ++ cis.map (fun ci => { g ci with currency := bom.currency })) ∧
      (cis.foldl (fun b ci => b.add_line_item (g ci)) bom).currency = bom.currency := by
  induction cis with
  | nil => intro bom; simp
  | cons ci t ih =>
    intro bom
    simp only [List.foldl_cons, List.map_cons]
    have h := ih (bom.add_line_item (g ci))
    refine ⟨?_, ?_⟩
    · rw [h.1]
      simp [BillOfMaterials.add_line_item, List.append_assoc]
    · rw [h.2]
      rfl

/-- The pricing fold of `calculate_assessment_cost`, when no VM is skipped:
line items accumulate as one map per VM over its cost components. -/
lemma assess_fold_all (cfg : PricingConfig) (vms : List VMSpec) :
    ∀ bom : BillOfMaterials, bom.currency = cfg.currency →
      ((vms.foldl (fun b vm =>
          (calculate_vm_cost cfg vm).foldl
            (fun b ci => b.add_line_item (mkLineItem cfg.currency vm ci)) b) bom).line_items =
        bom.line_items ++
          vms.flatMap (fun vm =>
            (calculate_vm_cost cfg vm).map (mkLineItem cfg.currency vm))) ∧
      (vms.foldl (fun b vm =>
          (calculate_vm_cost cfg vm).foldl
            (fun b ci => b.add_line_item (mkLineItem cfg.currency vm ci)) b) bom).currency =
        cfg.currency := by
  induction vms with
  | nil => intro bom hcur; exact ⟨by simp, hcur⟩
  | cons vm t ih =>
    intro bom hcur
    simp only [List.foldl_cons, List.flatMap_cons]
    have h1 := add_fold_line_items (mkLineItem cfg.currency vm) (calculate_vm_cost cfg vm) bom
    have h2 := ih _ (by rw [h1.2, hcur])
    refine ⟨?_, h2.2⟩
    rw [h2.1, h1.1, hcur, List.append_assoc]
    rfl

/-- Claim C3 amended: with the `include_powered_off` metadata flag set, the
bill of materials contains one line item per cost component that
`calculate_vm_cost` returns for each VM of the assessment; and since
`calculate_vm_cost` returns no components for a powered-off VM, a
powered-off VM contributes no line items even when the flag admits it. -/
theorem claim_C3_amended (cfg : PricingConfig) (a : VMAssessment)
    (h : a.include_powered_off = true) :
    (calculate_assessment_cost cfg a).line_items =
      a.vms.flatMap (fun vm =>
        (calculate_vm_cost cfg vm).map (mkLineItem cfg.currency vm)) ∧
    ∀ vm ∈ a.vms, vm.is_powered_on = false → calculate_vm_cost cfg vm = [] := by
  constructor
  · unfold calculate_assessment_cost
    have hguard : ∀ vm : VMSpec, (!vm.is_powered_on && !a.include_powered_off) = false := by
      intro vm; rw [h]; simp
    simp only [hguard, Bool.false_eq_true, if_false]
    have hfold := assess_fold_all cfg a.vms
      { assessment_id := []
        line_items := []
        currency := cfg.currency
        pricing_source := some "Oracle Cloud Infrastructure" } rfl
    simpa using hfold.1
  · intro vm _ hoff
    simp [calculate_vm_cost, hoff]

/-- Witness for claim C3 (amended) at a concrete flag-set assessment. -/
theorem claim_C3_witness :
    (calculate_assessment_cost defaultPricingConfig assessOffFlag).line_items =
      assessOffFlag.vms.flatMap (fun vm =>
        (calculate_vm_cost defaultPricingConfig vm).map
          (mkLineItem defaultPricingConfig.currency vm)) :=
  (claim_C3_amended defaultPricingConfig assessOffFlag rfl).1

/-- Every record `_create_vm_spec_from_row` returns carries the power state
classified from the power-state cell (or its `'poweredOn'` default). -/
lemma create_power_state (row : Row) (cm : ColumnMap) (spec : VMSpec)
    (hcreate : create_vm_spec_from_row row cm = some spec) :
    spec.power_state =
      detect_power_state (rowGetD row (cm.powerstate.getD []) powerOnDefault) := by
  simp only [create_vm_spec_from_row] at hcreate
  split at hcreate
  · exact absurd hcreate (by simp)
  · split at hcreate
    · exact absurd hcreate (by simp)
    · have hspec := Option.some.inj hcreate
      rw [← hspec]
      split <;> rfl

/-- Claim C7: when the column mapping assigns no power-state column (and the
row has no column under the empty name the fallback looks up), every record
the builder constructs is powered on, and `is_powered_on` holds. -/
theorem claim_C7_power_default (row : Row) (cm : ColumnMap) (spec : VMSpec)
    (hps : cm.powerstate = none) (hrow : rowGet row [] = none)
    (hcreate : create_vm_spec_from_row row cm = some spec) :
    spec.power_state = PowerState.POWERED_ON ∧ spec.is_powered_on = true := by
  have hp : spec.power_state = PowerState.POWERED_ON := by
    rw [create_power_state row cm spec hcreate, hps]
    unfold rowGetD
    rw [show (none : Option Str).getD [] = [] from rfl, hrow]
    decide
  refine ⟨hp, ?_⟩
  unfold VMSpec.is_powered_on
  rw [hp]

/-- A merged row carrying identity, name and CPU columns but no power-state
column (and no column under the empty name). -/
def rowWitness : Row :=
  [(uuidKey, "421a-77".data), ("cpu_VM".data, "web-01".data), ("cpu_CPUs".data, "4".data)]

/-- A column mapping that assigns no power-state column. -/
def cmWitness : ColumnMap :=
  { vm_name := some "cpu_VM".data
    cpu := some "cpu_CPUs".data }

/-- Fallback record for reading off the builder's result. -/
def specFallback : VMSpec := { vm_id := [], vm_name := [], cpu_cores := 0, memory_gb := 0 }

/-- The record the builder constructs from `rowWitness` under `cmWitness`. -/
def specWitness : VMSpec := (create_vm_spec_from_row rowWitness cmWitness).getD specFallback

/-- Witness for claim C7 at a concrete row whose mapping has no power-state
column: the constructed record is powered on. -/
theorem claim_C7_witness :
    cmWitness.powerstate = none ∧ rowGet rowWitness [] = none ∧
    create_vm_spec_from_row rowWitness cmWitness = some specWitness ∧
    specWitness.power_state = PowerState.POWERED_ON ∧
    specWitness.is_powered_on = true := by
  have hcreate : create_vm_spec_from_row rowWitness cmWitness = some specWitness := by decide
  have h := claim_C7_power_default rowWitness cmWitness specWitness rfl (by decide) hcreate
  exact ⟨rfl, by decide, hcreate, h.1, h.2⟩

/-! ### Supporting lemmas for the Unit Normalizer theorem -/

/-- The columns the MB pass selects (numeric, MB-named, not already consumed
by the MiB pass). -/
def mbSelOnly (c : Col) : Bool := !(isMibName c.name) && mbSel c

/-- The name a column carries after `convert_units`. -/
def finalName (c : Col) : Str :=
  if mibSel c then renameMib c.name
  else if mbSelOnly c then renameMb c.name
  else c.name

/-- A frame whose header names behave under unit conversion: distinct names;
each converted column's GB name is fresh, not itself a unit-pattern name,
and the final names are pairwise distinct (true of real RVTools headers,
e.g. `'Memory MiB' → 'Memory GB'`). -/
def CleanFrame (df : Frame) : Prop :=
  (df.map Col.name).Nodup ∧
  (∀ c ∈ df, mibSel c = true →
    isMbName (renameMib c.name) = false ∧ renameMib c.name ∉ df.map Col.name) ∧
  (∀ c ∈ df, mbSelOnly c = true → renameMb c.name ∉ df.map Col.name) ∧
  (df.map finalName).Nodup

lemma findCol_eq_none (df : Frame) (n : Str) (h : ∀ c ∈ df, c.name ≠ n) :
    findCol df n = none := by
  induction df with
  | nil => rfl
  | cons a t ih =>
    rw [findCol, if_neg (h a (List.mem_cons_self a t))]
    exact ih fun c hc => h c (List.mem_cons_of_mem a hc)

lemma hasCol_eq_false (df : Frame) (n : Str) (h : ∀ c ∈ df, c.name ≠ n) :
    hasCol df n = false := by
  rw [hasCol, findCol_eq_none df n h]
  rfl

lemma findCol_append_left {A : Frame} {n : Str} {c : Col} (B : Frame)
    (hA : findCol A n = some c) : findCol (A ++ B) n = some c := by
  induction A with
  | nil => simp [findCol] at hA
  | cons a t ih =>
    rw [List.cons_append, findCol]
    rw [findCol] at hA
    by_cases hh : a.name = n
    · rw [if_pos hh] at hA ⊢
      exact hA
    · rw [if_neg hh] at hA ⊢
      exact ih hA

lemma findCol_of_mem_nodup {df : Frame} {c : Col} (hmem : c ∈ df)
    (hnd : (df.map Col.name).Nodup) : findCol df c.name = some c := by
  induction df with
  | nil => simp at hmem
  | cons a t ih =>
    rw [List.map_cons, List.nodup_cons] at hnd
    rw [findCol]
    rcases List.mem_cons.mp hmem with rfl | hmt
    · rw [if_pos rfl]
    · have hne : a.name ≠ c.name := by
        intro he
        exact hnd.1 (he ▸ List.mem_map_of_mem Col.name hmt)
      rw [if_neg hne]
      exact ih hmt hnd.2

lemma setCol_fresh (df : Frame) (n : Str) (d : ColData)
    (h : ∀ c ∈ df, c.name ≠ n) : setCol df n d = df ++ [⟨n, d⟩] := by
  rw [setCol, hasCol_eq_false df n h]
  simp

lemma dropCol_append (A B : Frame) (n : Str) :
    dropCol (A ++ B) n = dropCol A n ++ dropCol B n := by
  simp [dropCol]

lemma dropCol_of_not_mem (df : Frame) (n : Str) (h : ∀ c ∈ df, c.name ≠ n) :
    dropCol df n = df := by
  rw [dropCol]
  apply List.filter_eq_self.mpr
  intro c hc
  simp [h c hc]

lemma findCol_dropCol_ne (df : Frame) (n m : Str) (hne : m ≠ n) :
    findCol (dropCol df n) m = findCol df m := by
  induction df with
  | nil => rfl
  | cons a t ih =>
    by_cases ha : a.name = n
    · have h1 : (!(a.name == n)) = false := by simp [ha]
      rw [dropCol, List.filter_cons, h1]
      simp only [Bool.false_eq_true, if_false]
      rw [← dropCol, ih, findCol, if_neg (by rw [ha]; exact fun hh => hne hh.symm)]
    · have h1 : (!(a.name == n)) = true := by simp [ha]
      rw [dropCol, List.filter_cons, h1]
      simp only [if_true]
      rw [findCol, findCol, ← dropCol, ih]

lemma filterMap_congr' {α β : Type} {l : List α} {f g : α → Option β}
    (h : ∀ a ∈ l, f a = g a) : l.filterMap f = l.filterMap g := by
  induction l with
  | nil => rfl
  | cons a t ih =>
    have ht := ih fun x hx => h x (List.mem_cons_of_mem a hx)
    simp [List.filterMap_cons, h a (List.mem_cons_self a t), ht]

lemma convertStep_eq (f : ℚ → ℚ) (rename : Str → Str) (A B : Frame) (n : Str) (c : Col)
    (hA : findCol A n = some c)
    (hnB : ∀ c' ∈ B, c'.name ≠ n)
    (hfresh : ∀ c' ∈ A ++ B, rename n ≠ c'.name)
    (hne : rename n ≠ n) :
    convertStep f rename (A ++ B) n =
      A.filter (fun c' => !(c'.name == n)) ++ B ++ [⟨rename n, c.data.mapNum f⟩] := by
  have hset : setCol (A ++ B) (rename n) (c.data.mapNum f) =
      (A ++ B) ++ [⟨rename n, c.data.mapNum f⟩] :=
    setCol_fresh _ _ _ fun c' hc' he => hfresh c' hc' he.symm
  simp only [convertStep, findCol_append_left B hA, hset]
  rw [dropCol_append, dropCol_append, dropCol_of_not_mem B n hnB,
    dropCol_of_not_mem [⟨rename n, c.data.mapNum f⟩] n ?_]
  · rfl
  · intro c' hc'
    rw [List.mem_singleton] at hc'
    subst hc'
    exact hne

lemma foldl_convertStep_eq (f : ℚ → ℚ) (rename : Str → Str) (L : List Str) :
    ∀ A B : Frame,
      ((A ++ B).map Col.name).Nodup →
      L.Nodup →
      (L.map rename).Nodup →
      (∀ n ∈ L, n ∈ A.map Col.name) →
      (∀ n ∈ L, ∀ c ∈ A ++ B, rename n ≠ c.name) →
      (∀ n ∈ L, ∀ m ∈ L, rename n ≠ m) →
      L.foldl (convertStep f rename) (A ++ B) =
        A.filter (fun c => !(decide (c.name ∈ L))) ++ B ++
          L.filterMap (fun n =>
            (findCol A n).map (fun c => Col.mk (rename n) (c.data.mapNum f))) := by
  induction L with
  | nil =>
    intro A B _ _ _ _ _ _
    simp
  | cons n L' ih =>
    intro A B hnd hLnd hRnd hmem hfresh hRL
    have hnA : n ∈ A.map Col.name := hmem n (List.mem_cons_self n L')
    obtain ⟨c, hcmem, hcname⟩ := List.mem_map.mp hnA
    have hndAB : (A.map Col.name ++ B.map Col.name).Nodup := by
      rw [← List.map_append]
      exact hnd
    have hAnd : (A.map Col.name).Nodup := (List.nodup_append.mp hndAB).1
    have hBnd : (B.map Col.name).Nodup := (List.nodup_append.mp hndAB).2.1
    have hdisjAB : (A.map Col.name).Disjoint (B.map Col.name) :=
      (List.nodup_append.mp hndAB).2.2
    have hfind : findCol A n = some c := by
      rw [← hcname]
      exact findCol_of_mem_nodup hcmem hAnd
    have hnB : ∀ c' ∈ B, c'.name ≠ n := by
      intro c' hc' he
      exact hdisjAB hnA (he ▸ List.mem_map_of_mem Col.name hc')
    have hfreshn : ∀ c' ∈ A ++ B, rename n ≠ c'.name :=
      hfresh n (List.mem_cons_self n L')
    have hrnn : rename n ≠ n := by
      have := hfreshn c (List.mem_append_left B hcmem)
      rw [hcname] at this
      exact this
    have hstep := convertStep_eq f rename A B n c hfind hnB hfreshn hrnn
    rw [List.foldl_cons, hstep, List.append_assoc]
    have hnotL' : n ∉ L' := (List.nodup_cons.mp hLnd).1
    have hrnNotL' : rename n ∉ L'.map rename := (List.nodup_cons.mp hRnd).1
    have hresult := ih (A.filter (fun c' => !(c'.name == n)))
      (B ++ [⟨rename n, c.data.mapNum f⟩]) ?_ ?_ ?_ ?_ ?_ ?_
    · rw [hresult]
      have hfiltA : (A.filter (fun c' => !(c'.name == n))).filter
          (fun c' => !(decide (c'.name ∈ L'))) =
          A.filter (fun c' => !(decide (c'.name ∈ n :: L'))) := by
        rw [List.filter_filter]
        apply List.filter_congr
        intro c' _
        by_cases h1 : c'.name = n <;> by_cases h2 : c'.name ∈ L' <;>
          simp [h1, h2, List.mem_cons]
      have hfmap : L'.filterMap (fun m =>
          (findCol (A.filter (fun c' => !(c'.name == n))) m).map
            (fun c' => Col.mk (rename m) (c'.data.mapNum f))) =
          L'.filterMap (fun m =>
            (findCol A m).map (fun c' => Col.mk (rename m) (c'.data.mapNum f))) := by
        apply filterMap_congr'
        intro m hm
        have hmn : m ≠ n := fun he => hnotL' (he ▸ hm)
        rw [show A.filter (fun c' => !(c'.name == n)) = dropCol A n from rfl,
          findCol_dropCol_ne A n m hmn]
      rw [hfiltA, hfmap, List.filterMap_cons]
      rw [hfind]
      simp [List.append_assoc]
    · -- names of the new state are distinct
      rw [List.map_append, List.map_append, List.map_cons, List.map_nil]
      rw [List.nodup_append]
      refine ⟨?_, ?_, ?_⟩
      · exact hAnd.sublist ((List.filter_sublist A).map Col.name)
      · rw [List.nodup_append]
        refine ⟨hBnd, List.nodup_singleton _, ?_⟩
        intro a haB haX
        rw [List.mem_singleton] at haX
        subst haX
        obtain ⟨cb, hcb, hcbname⟩ := List.mem_map.mp haB
        exact hfreshn cb (List.mem_append_right A hcb) hcbname.symm
      · intro a haA' haBX
        obtain ⟨ca, hca, hcaname⟩ := List.mem_map.mp haA'
        have hcaA : ca ∈ A := (List.mem_filter.mp hca).1
        rcases List.mem_append.mp haBX with haB | haX
        · exact hdisjAB (hcaname ▸ List.mem_map_of_mem Col.name hcaA) haB
        · rw [List.mem_singleton] at haX
          subst haX
          exact hfreshn ca (List.mem_append_left B hcaA) hcaname.symm
    · exact (List.nodup_cons.mp hLnd).2
    · exact (List.nodup_cons.mp hRnd).2
    · intro m hm
      obtain ⟨cm, hcm, hcmname⟩ := List.mem_map.mp (hmem m (List.mem_cons_of_mem n hm))
      have hmn : m ≠ n := fun he => hnotL' (he ▸ hm)
      refine List.mem_map.mpr ⟨cm, List.mem_filter.mpr ⟨hcm, ?_⟩, hcmname⟩
      simp [hcmname, hmn]
    · intro m hm c' hc'
      rcases List.mem_append.mp hc' with hcA' | hcBX
      · exact hfresh m (List.mem_cons_of_mem n hm) c'
          (List.mem_append_left B (List.mem_filter.mp hcA').1)
      · rcases List.mem_append.mp hcBX with hcB | hcX
        · exact hfresh m (List.mem_cons_of_mem n hm) c' (List.mem_append_right A hcB)
        · rw [List.mem_singleton] at hcX
          subst hcX
          intro he
          have he' : rename m = rename n := he
          exact hrnNotL' (he' ▸ List.mem_map_of_mem rename hm)
    · intro m hm m' hm'
      exact hRL m (List.mem_cons_of_mem n hm) m' (List.mem_cons_of_mem n hm')

lemma mapCongr {α β : Type} {l : List α} {f g : α → β} (h : ∀ a ∈ l, f a = g a) :
    l.map f = l.map g := by
  induction l with
  | nil => rfl
  | cons a t ih =>
    rw [List.map_cons, List.map_cons, h a (List.mem_cons_self a t),
      ih fun x hx => h x (List.mem_cons_of_mem a hx)]

lemma nodup_map_inj {α β : Type} {l : List α} {f : α → β} (hnd : (l.map f).Nodup) :
    ∀ x ∈ l, ∀ y ∈ l, f x = f y → x = y := by
  induction l with
  | nil => intro x hx; simp at hx
  | cons a t ih =>
    rw [List.map_cons, List.nodup_cons] at hnd
    intro x hx y hy hfxy
    rcases List.mem_cons.mp hx with rfl | hxt
    · rcases List.mem_cons.mp hy with rfl | hyt
      · rfl
      · exact absurd (hfxy ▸ List.mem_map_of_mem f hyt) hnd.1
    · rcases List.mem_cons.mp hy with rfl | hyt
      · exact absurd (hfxy ▸ List.mem_map_of_mem f hxt) hnd.1
      · exact ih hnd.2 x hxt y hyt hfxy

/-- One conversion pass of `_convert_units` over the columns a predicate
selects, characterized: selected columns are replaced (at the end, renamed,
converted), unselected columns stay. -/
lemma pass_eq (f : ℚ → ℚ) (rename : Str → Str) (p : Col → Bool) (df : Frame)
    (hnd : (df.map Col.name).Nodup)
    (hfresh : ∀ c ∈ df, p c = true → rename c.name ∉ df.map Col.name)
    (hrnd : ((df.filter p).map (fun c => rename c.name)).Nodup) :
    ((df.filter p).map Col.name).foldl (convertStep f rename) df =
      df.filter (fun c => !(p c)) ++
        (df.filter p).map (fun c => Col.mk (rename c.name) (c.data.mapNum f)) := by
  have hmain := foldl_convertStep_eq f rename ((df.filter p).map Col.name) df [] ?_ ?_ ?_ ?_ ?_ ?_
  · rw [List.append_nil] at hmain
    rw [hmain]
    have hfilt : df.filter (fun c => !(decide (c.name ∈ (df.filter p).map Col.name))) =
        df.filter (fun c => !(p c)) := by
      apply List.filter_congr
      intro c hc
      have : (c.name ∈ (df.filter p).map Col.name) ↔ p c = true := by
        constructor
        · intro hmem
          obtain ⟨c', hc', hc'name⟩ := List.mem_map.mp hmem
          have hceq : c' = c :=
            nodup_map_inj hnd c' (List.mem_of_mem_filter hc') c hc hc'name
          exact hceq ▸ (List.mem_filter.mp hc').2
        · intro hp
          exact List.mem_map_of_mem Col.name (List.mem_filter.mpr ⟨hc, hp⟩)
      by_cases hp : p c = true <;> simp [hp, this]
    have hfmap : ((df.filter p).map Col.name).filterMap (fun n =>
        (findCol df n).map (fun c => Col.mk (rename n) (c.data.mapNum f))) =
        (df.filter p).map (fun c => Col.mk (rename c.name) (c.data.mapNum f)) := by
      rw [List.filterMap_map]
      have hpt : ∀ c ∈ df.filter p,
          ((fun n => (findCol df n).map (fun c' => Col.mk (rename n) (c'.data.mapNum f))) ∘
            Col.name) c =
          some (Col.mk (rename c.name) (c.data.mapNum f)) := by
        intro c hc
        have : findCol df c.name = some c :=
          findCol_of_mem_nodup (List.mem_of_mem_filter hc) hnd
        simp [Function.comp, this]
      rw [filterMap_congr' hpt]
      rw [show (fun a : Col => some (Col.mk (rename a.name) (a.data.mapNum f))) =
        some ∘ (fun a : Col => Col.mk (rename a.name) (a.data.mapNum f)) from rfl,
        List.filterMap_eq_map]
    rw [hfilt, hfmap, List.append_nil]
  · simpa using hnd
  · exact hnd.sublist ((List.filter_sublist df).map Col.name)
  · rw [List.map_map]
    exact hrnd
  · intro n hn
    obtain ⟨c, hc, hcname⟩ := List.mem_map.mp hn
    exact hcname ▸ List.mem_map_of_mem Col.name (List.mem_of_mem_filter hc)
  · intro n hn c hc
    rw [List.append_nil] at hc
    obtain ⟨cn, hcn, hcnname⟩ := List.mem_map.mp hn
    intro he
    apply hfresh cn (List.mem_of_mem_filter hcn) (List.mem_filter.mp hcn).2
    rw [hcnname, he]
    exact List.mem_map_of_mem Col.name hc
  · intro n hn m hm
    obtain ⟨cn, hcn, hcnname⟩ := List.mem_map.mp hn
    obtain ⟨cm, hcm, hcmname⟩ := List.mem_map.mp hm
    intro he
    apply hfresh cn (List.mem_of_mem_filter hcn) (List.mem_filter.mp hcn).2
    rw [hcnname, he, ← hcmname]
    exact List.mem_map_of_mem Col.name (List.mem_of_mem_filter hcm)

lemma finalName_of_mibSel (c : Col) (h : mibSel c = true) :
    finalName c = renameMib c.name := by
  rw [finalName, if_pos h]

lemma mibSel_eq_false_of_mbSelOnly (c : Col) (h : mbSelOnly c = true) :
    mibSel c = false := by
  rw [mbSelOnly, Bool.and_eq_true] at h
  obtain ⟨h1, _⟩ := h
  rw [mibSel]
  rw [Bool.not_eq_true'] at h1
  rw [h1, Bool.false_and]

lemma finalName_of_mbSelOnly (c : Col) (h : mbSelOnly c = true) :
    finalName c = renameMb c.name := by
  rw [finalName, if_neg (by simp [mibSel_eq_false_of_mbSelOnly c h]), if_pos h]

/-- `_convert_units`, characterized on a clean frame: unconverted columns
first (in order), then the converted MiB columns (renamed, each cell divided
by 1024 and rounded to 2 decimals), then the converted MB columns (renamed,
each cell divided by 1000 and rounded to 2 decimals). -/
lemma convert_units_eq (df : Frame) (hclean : CleanFrame df) :
    convert_units df =
      df.filter (fun c => !(mibSel c) && !(mbSelOnly c)) ++
        (df.filter mibSel).map
          (fun c => Col.mk (renameMib c.name) (c.data.mapNum (fun v => round2 (v / 1024)))) ++
        (df.filter mbSelOnly).map
          (fun c => Col.mk (renameMb c.name) (c.data.mapNum (fun v => round2 (v / 1000)))) := by
  obtain ⟨hnd, hmib, hmbf, hfin⟩ := hclean
  have hrnd1 : ((df.filter mibSel).map (fun c => renameMib c.name)).Nodup := by
    have heq : (df.filter mibSel).map (fun c => renameMib c.name) =
        (df.filter mibSel).map finalName :=
      mapCongr fun c hc => (finalName_of_mibSel c (List.mem_filter.mp hc).2).symm
    rw [heq]
    exact hfin.sublist ((List.filter_sublist df).map finalName)
  have hpass1 := pass_eq (fun v => round2 (v / 1024)) renameMib mibSel df hnd
    (fun c hc h => (hmib c hc h).2) hrnd1
  have hnamesC : (((df.filter mibSel).map
      (fun c => Col.mk (renameMib c.name) (c.data.mapNum (fun v => round2 (v / 1024))))).map
        Col.name) = (df.filter mibSel).map (fun c => renameMib c.name) := by
    rw [List.map_map]
    rfl
  have hmbC : ∀ x ∈ (df.filter mibSel).map
      (fun c => Col.mk (renameMib c.name) (c.data.mapNum (fun v => round2 (v / 1024)))),
      mbSel x = false := by
    intro x hx
    obtain ⟨c, hc, hcx⟩ := List.mem_map.mp hx
    rw [← hcx, mbSel]
    have h1 : isMbName (renameMib c.name) = false :=
      (hmib c (List.mem_of_mem_filter hc) (List.mem_filter.mp hc).2).1
    rw [show (Col.mk (renameMib c.name)
      (c.data.mapNum (fun v => round2 (v / 1024)))).name = renameMib c.name from rfl, h1,
      Bool.false_and]
  have hnd1 : (((df.filter (fun c => !(mibSel c))) ++ (df.filter mibSel).map
      (fun c => Col.mk (renameMib c.name) (c.data.mapNum (fun v => round2 (v / 1024))))).map
        Col.name).Nodup := by
    rw [List.map_append, hnamesC, List.nodup_append]
    refine ⟨hnd.sublist ((List.filter_sublist df).map Col.name), hrnd1, ?_⟩
    intro a haU haC
    obtain ⟨cu, hcu, hcuname⟩ := List.mem_map.mp haU
    obtain ⟨cc, hcc, hccname⟩ := List.mem_map.mp haC
    apply (hmib cc (List.mem_of_mem_filter hcc) (List.mem_filter.mp hcc).2).2
    rw [hccname, ← hcuname]
    exact List.mem_map_of_mem Col.name (List.mem_of_mem_filter hcu)
  have hfiltdf1 : ((df.filter (fun c => !(mibSel c))) ++ (df.filter mibSel).map
      (fun c => Col.mk (renameMib c.name)
        (c.data.mapNum (fun v => round2 (v / 1024))))).filter mbSel =
      df.filter mbSelOnly := by
    rw [List.filter_append]
    have hC0 : ((df.filter mibSel).map
        (fun c => Col.mk (renameMib c.name)
          (c.data.mapNum (fun v => round2 (v / 1024))))).filter mbSel = [] := by
      apply List.filter_eq_nil_iff.mpr
      intro x hx
      simp [hmbC x hx]
    rw [hC0, List.append_nil, List.filter_filter]
    apply List.filter_congr
    intro c _
    cases h1 : isMibName c.name <;> cases h2 : isMbName c.name <;> cases h3 : c.isNumeric <;>
      simp [mibSel, mbSel, mbSelOnly, h1, h2, h3]
  have hfresh2 : ∀ x ∈ (df.filter (fun c => !(mibSel c))) ++ (df.filter mibSel).map
      (fun c => Col.mk (renameMib c.name) (c.data.mapNum (fun v => round2 (v / 1024)))),
      mbSel x = true → renameMb x.name ∉
        (((df.filter (fun c => !(mibSel c))) ++ (df.filter mibSel).map
          (fun c => Col.mk (renameMib c.name)
            (c.data.mapNum (fun v => round2 (v / 1024))))).map Col.name) := by
    intro x hx hmbx
    rcases List.mem_append.mp hx with hxU | hxC
    · have hxdf : x ∈ df := List.mem_of_mem_filter hxU
      have hnmib : mibSel x = false := by simpa using (List.mem_filter.mp hxU).2
      rw [mbSel, Bool.and_eq_true] at hmbx
      obtain ⟨hmb', hnum⟩ := hmbx
      have hmibname : isMibName x.name = false := by
        rw [mibSel, hnum, Bool.and_true] at hnmib
        exact hnmib
      have hxOnly : mbSelOnly x = true := by
        simp [mbSelOnly, mbSel, hmibname, hmb', hnum]
      rw [List.map_append, hnamesC]
      intro hcon
      rcases List.mem_append.mp hcon with hU | hC
      · obtain ⟨cu, hcu, hcuname⟩ := List.mem_map.mp hU
        apply hmbf x hxdf hxOnly
        rw [← hcuname]
        exact List.mem_map_of_mem Col.name (List.mem_of_mem_filter hcu)
      · obtain ⟨cc, hcc, hccname⟩ := List.mem_map.mp hC
        have hxcc : x = cc := by
          apply nodup_map_inj hfin x hxdf cc (List.mem_of_mem_filter hcc)
          rw [finalName_of_mbSelOnly x hxOnly,
            finalName_of_mibSel cc (List.mem_filter.mp hcc).2, hccname]
        have : mibSel x = true := hxcc ▸ (List.mem_filter.mp hcc).2
        rw [hnmib] at this
        exact Bool.false_ne_true this
    · rw [hmbC x hxC] at hmbx
      exact absurd hmbx Bool.false_ne_true
  have hrnd2 : ((((df.filter (fun c => !(mibSel c))) ++ (df.filter mibSel).map
      (fun c => Col.mk (renameMib c.name)
        (c.data.mapNum (fun v => round2 (v / 1024))))).filter mbSel).map
          (fun c => renameMb c.name)).Nodup := by
    rw [hfiltdf1]
    have heq : (df.filter mbSelOnly).map (fun c => renameMb c.name) =
        (df.filter mbSelOnly).map finalName :=
      mapCongr fun c hc => (finalName_of_mbSelOnly c (List.mem_filter.mp hc).2).symm
    rw [heq]
    exact hfin.sublist ((List.filter_sublist df).map finalName)
  have hpass2 := pass_eq (fun v => round2 (v / 1000)) renameMb mbSel
    ((df.filter (fun c => !(mibSel c))) ++ (df.filter mibSel).map
      (fun c => Col.mk (renameMib c.name) (c.data.mapNum (fun v => round2 (v / 1024)))))
    hnd1 hfresh2 hrnd2
  rw [convert_units, hpass1, hpass2, hfiltdf1, List.filter_append]
  have hCkeep : ((df.filter mibSel).map
      (fun c => Col.mk (renameMib c.name)
        (c.data.mapNum (fun v => round2 (v / 1024))))).filter (fun c => !(mbSel c)) =
      (df.filter mibSel).map
        (fun c => Col.mk (renameMib c.name) (c.data.mapNum (fun v => round2 (v / 1024)))) := by
    apply List.filter_eq_self.mpr
    intro x hx
    simp [hmbC x hx]
  have hUkeep : (df.filter (fun c => !(mibSel c))).filter (fun c => !(mbSel c)) =
      df.filter (fun c => !(mibSel c) && !(mbSelOnly c)) := by
    rw [List.filter_filter]
    apply List.filter_congr
    intro c _
    cases h1 : isMibName c.name <;> cases h2 : isMbName c.name <;> cases h3 : c.isNumeric <;>
      simp [mibSel, mbSel, mbSelOnly, h1, h2, h3]
  rw [hCkeep, hUkeep]

/-- Claim C9: on a clean frame, every numeric column the Unit Normalizer
identifies as binary-unit (MiB) reappears under its GB name with each value
divided by 1024 and rounded to 2 decimals; every decimal-unit (MB, Mbps
excluded) numeric column likewise with 1000; and non-numeric columns —
pattern-matching names included — are left untouched. -/
theorem claim_C9_unit_conversion (df : Frame) (hclean : CleanFrame df) :
    (∀ c ∈ df, mibSel c = true →
      Col.mk (renameMib c.name) (c.data.mapNum (fun v => round2 (v / 1024))) ∈
        convert_units df) ∧
    (∀ c ∈ df, mbSelOnly c = true →
      Col.mk (renameMb c.name) (c.data.mapNum (fun v => round2 (v / 1000))) ∈
        convert_units df) ∧
    (∀ c ∈ df, c.isNumeric = false → c ∈ convert_units df) := by
  rw [convert_units_eq df hclean]
  refine ⟨?_, ?_, ?_⟩
  · intro c hc hsel
    apply List.mem_append_left
    apply List.mem_append_right
    exact List.mem_map_of_mem _ (List.mem_filter.mpr ⟨hc, hsel⟩)
  · intro c hc hsel
    apply List.mem_append_right
    exact List.mem_map_of_mem _ (List.mem_filter.mpr ⟨hc, hsel⟩)
  · intro c hc hnum
    apply List.mem_append_left
    apply List.mem_append_left
    refine List.mem_filter.mpr ⟨hc, ?_⟩
    simp [mibSel, mbSel, mbSelOnly, Col.isNumeric] at hnum ⊢
    simp [hnum]

/-- A concrete frame: a numeric binary-unit column holding 1024, a numeric
decimal-unit column holding 1000, and a textual column whose name matches
the MiB pattern. -/
def frameWitness : Frame :=
  [⟨"Memory MiB".data, ColData.nums [some 1024]⟩,
   ⟨"Disk MB".data, ColData.nums [some 1000]⟩,
   ⟨"OS MiB Name".data, ColData.strs [some "x".data]⟩]

lemma witness_mib_data :
    (ColData.nums [some 1024]).mapNum (fun v => round2 (v / 1024)) =
      ColData.nums [some 1] := by
  simp only [ColData.mapNum, List.map_cons, List.map_nil, Option.map_some]
  norm_num [round2, roundHalfEven]

lemma witness_mb_data :
    (ColData.nums [some 1000]).mapNum (fun v => round2 (v / 1000)) =
      ColData.nums [some 1] := by
  simp only [ColData.mapNum, List.map_cons, List.map_nil, Option.map_some]
  norm_num [round2, roundHalfEven]

/-- Witness for claim C9: 1024 in the binary-unit column becomes 1.0 under
the GB name, 1000 in the decimal-unit column becomes 1.0, and the
non-numeric pattern-named column is untouched. -/
theorem claim_C9_witness :
    CleanFrame frameWitness ∧
    Col.mk "Memory GB".data (ColData.nums [some 1]) ∈ convert_units frameWitness ∧
    Col.mk "Disk GB".data (ColData.nums [some 1]) ∈ convert_units frameWitness ∧
    Col.mk "OS MiB Name".data (ColData.strs [some "x".data]) ∈
      convert_units frameWitness := by
  have hclean : CleanFrame frameWitness := by
    unfold CleanFrame
    decide
  have h := claim_C9_unit_conversion frameWitness hclean
  have hmem0 : (⟨"Memory MiB".data, ColData.nums [some 1024]⟩ : Col) ∈ frameWitness := by
    unfold frameWitness
    exact List.mem_cons_self _ _
  have hmem1 : (⟨"Disk MB".data, ColData.nums [some 1000]⟩ : Col) ∈ frameWitness := by
    unfold frameWitness
    exact List.mem_cons_of_mem _ (List.mem_cons_self _ _)
  have hmem2 : (⟨"OS MiB Name".data, ColData.strs [some "x".data]⟩ : Col) ∈ frameWitness := by
    unfold frameWitness
    exact List.mem_cons_of_mem _ (List.mem_cons_of_mem _ (List.mem_cons_self _ _))
  refine ⟨hclean, ?_, ?_, ?_⟩
  · have hm := h.1 _ hmem0 (by decide)
    rw [show renameMib "Memory MiB".data = "Memory GB".data from by decide,
      witness_mib_data] at hm
    exact hm
  · have hm := h.2.1 _ hmem1 (by decide)
    rw [show renameMb "Disk MB".data = "Disk GB".data from by decide,
      witness_mb_data] at hm
    exact hm
  · exact h.2.2 _ hmem2 rfl
